import Mathlib

/-!
A verification model of the rustycasc CAS resolution and fetch engine.

Shallow embedding of the binary parsers and the fetch pipeline of the
repository (src/blte.rs, src/encoding.rs, src/root.rs, src/archive.rs,
src/wdc3.rs, src/util.rs, src/main.rs) over `List Nat` byte strings.

Modelling conventions:
* machine integers are `Nat` with explicit `% 2 ^ w` wrapping where the Rust
  code can overflow (release-mode semantics: arithmetic wraps silently);
* byte buffers are `List Nat`; `bytes::Buf` cursors become positional reads;
* fallible Rust code returns `ROut`: `ok`, `err` (an `anyhow` error) or
  `crash` (a Rust panic from out-of-range slicing or indexing);
* error strings of `ensure!` calls carrying an explicit message are kept
  verbatim; messages auto-generated from the condition text, and dynamic
  message components, are abbreviated;
* Rust `String` values are modelled as UTF-8-validated byte lists;
* the zlib inflater (`miniz_oxide`, an external crate) is an explicit
  function parameter `inflate`.
-/

set_option maxRecDepth 100000

deriving instance DecidableEq for Except

namespace Rustycasc

/-- Outcome of running a piece of fallible Rust code: a value, an `anyhow`
error, or a panic (`crash`). -/
inductive ROut (α : Type) where
  | ok : α → ROut α
  | err : String → ROut α
  | crash : String → ROut α
deriving DecidableEq

/-- Whether an outcome is a panic. -/
def ROut.isCrash {α : Type} : ROut α → Bool
  | ROut.crash _ => true
  | _ => false

/-- Little-endian value of a byte list (first byte least significant). -/
def leVal (l : List Nat) : Nat := l.foldr (fun b acc => acc * 256 + b) 0

/-- Big-endian value of a byte list (first byte most significant). -/
def beVal (l : List Nat) : Nat := l.foldl (fun acc b => acc * 256 + b) 0

/-- The `w` little-endian bytes of `n`. -/
def leBytes (w n : Nat) : List Nat := (List.range w).map (fun i => n / 256 ^ i % 256)

/-- The `w` big-endian bytes of `n`. -/
def beBytes (w n : Nat) : List Nat := (leBytes w n).reverse

/-- `n` bytes of `l` starting at byte offset `i`. -/
def bytesAt (l : List Nat) (i n : Nat) : List Nat := (l.drop i).take n

/-- 32-bit truncating addition. -/
def add32 (x y : Nat) : Nat := (x + y) % 4294967296

/-- 32-bit wrapping subtraction. -/
def sub32 (x y : Nat) : Nat := (x + 4294967296 - y % 4294967296) % 4294967296

/-- 64-bit wrapping subtraction (release-mode `usize` subtraction). -/
def sub64 (x y : Nat) : Nat :=
  (x + 18446744073709551616 - y % 18446744073709551616) % 18446744073709551616

/-- 64-bit truncating addition (release-mode `usize` addition). -/
def add64 (x y : Nat) : Nat := (x + y) % 18446744073709551616

/-- 32-bit left rotation. -/
def rotl32 (x n : Nat) : Nat := ((x <<< n) ||| (x >>> (32 - n))) % 4294967296

/-- Association-list lookup, first match wins (`HashMap::get`). -/
def alLookup {α : Type} : List (Nat × α) → Nat → Option α
  | [], _ => none
  | (k, v) :: rest, key => if k = key then some v else alLookup rest key

/-- Association-list insert, replacing an existing binding (`HashMap::insert`). -/
def alInsert {α : Type} : List (Nat × α) → Nat → α → List (Nat × α)
  | [], key, v => [(key, v)]
  | (k, w) :: rest, key, v =>
    if k = key then (k, v) :: rest else (k, w) :: alInsert rest key v

/-- RFC 3629 UTF-8 validity of a byte list (`String::from_utf8` succeeds). -/
def utf8Valid : List Nat → Bool
  | [] => true
  | b :: rest =>
    if b < 128 then utf8Valid rest
    else if b < 194 then false
    else if b < 224 then
      match rest with
      | b1 :: r => 128 ≤ b1 && b1 < 192 && utf8Valid r
      | _ => false
    else if b < 240 then
      match rest with
      | b1 :: b2 :: r =>
        (if b = 224 then 160 ≤ b1 && b1 < 192
         else if b = 237 then 128 ≤ b1 && b1 < 160
         else 128 ≤ b1 && b1 < 192)
          && (128 ≤ b2 && b2 < 192) && utf8Valid r
      | _ => false
    else if b < 245 then
      match rest with
      | b1 :: b2 :: b3 :: r =>
        (if b = 240 then 144 ≤ b1 && b1 < 192
         else if b = 244 then 128 ≤ b1 && b1 < 144
         else 128 ≤ b1 && b1 < 192)
          && (128 ≤ b2 && b2 < 192) && (128 ≤ b3 && b3 < 192) && utf8Valid r
      | _ => false
    else false

/-! ## MD5 (src/util.rs `md5hash`) -/

/-- MD5 per-round shift amounts. -/
def md5S : List Nat :=
  [7,12,17,22,7,12,17,22,7,12,17,22,7,12,17,22,
   5,9,14,20,5,9,14,20,5,9,14,20,5,9,14,20,
   4,11,16,23,4,11,16,23,4,11,16,23,4,11,16,23,
   6,10,15,21,6,10,15,21,6,10,15,21,6,10,15,21]

/-- MD5 sine-derived round constants. -/
def md5K : List Nat :=
  [0xd76aa478, 0xe8c7b756, 0x242070db, 0xc1bdceee,
   0xf57c0faf, 0x4787c62a, 0xa8304613, 0xfd469501,
   0x698098d8, 0x8b44f7af, 0xffff5bb1, 0x895cd7be,
   0x6b901122, 0xfd987193, 0xa679438e, 0x49b40821,
   0xf61e2562, 0xc040b340, 0x265e5a51, 0xe9b6c7aa,
   0xd62f105d, 0x02441453, 0xd8a1e681, 0xe7d3fbc8,
   0x21e1cde6, 0xc33707d6, 0xf4d50d87, 0x455a14ed,
   0xa9e3e905, 0xfcefa3f8, 0x676f02d9, 0x8d2a4c8a,
   0xfffa3942, 0x8771f681, 0x6d9d6122, 0xfde5380c,
   0xa4beea44, 0x4bdecfa9, 0xf6bb4b60, 0xbebfbc70,
   0x289b7ec6, 0xeaa127fa, 0xd4ef3085, 0x04881d05,
   0xd9d4d039, 0xe6db99e5, 0x1fa27cf8, 0xc4ac5665,
   0xf4292244, 0x432aff97, 0xab9423a7, 0xfc93a039,
   0x655b59c3, 0x8f0ccc92, 0xffeff47d, 0x85845dd1,
   0x6fa87e4f, 0xfe2ce6e0, 0xa3014314, 0x4e0811a1,
   0xf7537e82, 0xbd3af235, 0x2ad7d2bb, 0xeb86d391]

/-- One MD5 round applied to state `(a, b, c, d)` using message words `m`. -/
def md5Round (m : Nat → Nat) (st : Nat × Nat × Nat × Nat) (i : Nat) :
    Nat × Nat × Nat × Nat :=
  let a := st.1; let b := st.2.1; let c := st.2.2.1; let d := st.2.2.2
  let f :=
    if i < 16 then (b &&& c) ||| ((b ^^^ 4294967295) &&& d)
    else if i < 32 then (d &&& b) ||| ((d ^^^ 4294967295) &&& c)
    else if i < 48 then b ^^^ c ^^^ d
    else c ^^^ (b ||| (d ^^^ 4294967295))
  let g :=
    if i < 16 then i
    else if i < 32 then (5 * i + 1) % 16
    else if i < 48 then (3 * i + 5) % 16
    else (7 * i) % 16
  let t := (f + a + md5K.getD i 0 + m g) % 4294967296
  (d, (b + rotl32 t (md5S.getD i 0)) % 4294967296, b, c)

/-- MD5 compression of one 64-byte chunk into the running state. -/
def md5Chunk (st : Nat × Nat × Nat × Nat) (chunk : List Nat) :
    Nat × Nat × Nat × Nat :=
  let m := fun g => leVal (bytesAt chunk (4 * g) 4)
  let r := (List.range 64).foldl (md5Round m) st
  ((st.1 + r.1) % 4294967296, ((st.2.1 + r.2.1) % 4294967296,
   ((st.2.2.1 + r.2.2.1) % 4294967296, (st.2.2.2 + r.2.2.2) % 4294967296)))

/-- Fold the MD5 compression over `n` successive 64-byte chunks. -/
def md5Chunks (st : Nat × Nat × Nat × Nat) (l : List Nat) :
    Nat → Nat × Nat × Nat × Nat
  | 0 => st
  | n + 1 => md5Chunks (md5Chunk st (l.take 64)) (l.drop 64) n

/-- MD5 padding: append `0x80`, zeros to 56 mod 64, then the 64-bit LE bit
length. -/
def md5Pad (data : List Nat) : List Nat :=
  data ++ [128] ++ List.replicate ((120 - (data.length + 1) % 64) % 64) 0
       ++ leBytes 8 (8 * data.length % 18446744073709551616)

/-- `util::md5hash` (src/util.rs): MD5 digest of the bytes, read as a
big-endian 128-bit integer (`u128::from_be_bytes(*md5::compute(p))`). -/
def md5hash (data : List Nat) : Nat :=
  let p := md5Pad data
  let r := md5Chunks (0x67452301, 0xefcdab89, 0x98badcfe, 0x10325476) p
    (p.length / 64)
  beVal (leBytes 4 r.1 ++ leBytes 4 r.2.1 ++ leBytes 4 r.2.2.1
    ++ leBytes 4 r.2.2.2)

/-! ## Jenkins lookup3 and the name-hash pipeline (src/root.rs `Root::n2c`) -/

/-- Jenkins lookup3 `mix` of the running triple. -/
def jmix : Nat × Nat × Nat → Nat × Nat × Nat
  | (a, b, c) =>
    let a := sub32 a c; let a := a ^^^ rotl32 c 4; let c := add32 c b
    let b := sub32 b a; let b := b ^^^ rotl32 a 6; let a := add32 a c
    let c := sub32 c b; let c := c ^^^ rotl32 b 8; let b := add32 b a
    let a := sub32 a c; let a := a ^^^ rotl32 c 16; let c := add32 c b
    let b := sub32 b a; let b := b ^^^ rotl32 a 19; let a := add32 a c
    let c := sub32 c b; let c := c ^^^ rotl32 b 4; let b := add32 b a
    (a, b, c)

/-- Jenkins lookup3 `final` mixing of the triple. -/
def jfinal : Nat × Nat × Nat → Nat × Nat × Nat
  | (a, b, c) =>
    let c := c ^^^ b; let c := sub32 c (rotl32 b 14)
    let a := a ^^^ c; let a := sub32 a (rotl32 c 11)
    let b := b ^^^ a; let b := sub32 b (rotl32 a 25)
    let c := c ^^^ b; let c := sub32 c (rotl32 b 16)
    let a := a ^^^ c; let a := sub32 a (rotl32 c 4)
    let b := b ^^^ a; let b := sub32 b (rotl32 a 14)
    let c := c ^^^ b; let c := sub32 c (rotl32 b 24)
    (a, b, c)

/-- Partial little-endian word of up to 4 bytes, as in the lookup3 tail
switch (absent bytes contribute nothing). -/
def jtailWord (l : List Nat) : Nat := leVal (l.take 4)

/-- The lookup3 block loop: full 12-byte blocks go through `jmix`; the final
1..12 bytes are added as partial words and passed through `jfinal`; a
zero-length tail returns the triple unmixed. -/
def jblocks (st : Nat × Nat × Nat) (l : List Nat) : Nat → Nat × Nat × Nat
  | 0 =>
    if l.length = 0 then st
    else
      jfinal (add32 st.1 (jtailWord l), add32 st.2.1 (jtailWord (l.drop 4)),
        add32 st.2.2 (jtailWord (l.drop 8)))
  | n + 1 =>
    jblocks
      (jmix (add32 st.1 (jtailWord l), add32 st.2.1 (jtailWord (l.drop 4)),
        add32 st.2.2 (jtailWord (l.drop 8))))
      (l.drop 12) n

/-- Jenkins lookup3 `hashlittle2` of a byte list with both seeds zero,
returning the pair `(pc, pb)` of 32-bit results. -/
def lookup3pair (data : List Nat) : Nat × Nat :=
  let init := add32 0xdeadbeef (data.length % 4294967296)
  let nblocks := if data.length = 0 then 0 else (data.length - 1) / 12
  let r := jblocks (init, init, init) data nblocks
  (r.2.2, r.2.1)

/-- Modelled from the spec: `hashers::jenkins::lookup3` (an external crate,
not under src/) applies Jenkins lookup3 to the bytes, yielding two 32-bit
outputs packed into a `u64`. Which half occupies the high word is immaterial
to every result below, since `n2c` swaps the halves bijectively. -/
def lookup3 (data : List Nat) : Nat :=
  ((lookup3pair data).1 <<< 32) ||| (lookup3pair data).2

/-- ASCII uppercasing of a byte list (`str::to_uppercase` restricted to the
ASCII bytes the name pipeline feeds it). -/
def upperAscii (l : List Nat) : List Nat :=
  l.map (fun b => if 97 ≤ b && b ≤ 122 then b - 32 else b)

/-- Replace forward slashes (0x2f) by backslashes (0x5c). -/
def replaceSlash (l : List Nat) : List Nat :=
  l.map (fun b => if b = 47 then 92 else b)

/-- Swap the two 32-bit halves of a 64-bit value. -/
def swapHalves64 (h : Nat) : Nat := ((h % 4294967296) <<< 32) ||| (h >>> 32)

/-- The 64-bit hash computed by `Root::n2c` (src/root.rs:24-28): Jenkins
lookup3 of the uppercased bytes, with the two 32-bit halves swapped. The
source performs no slash replacement here. -/
def n2cHash (name : List Nat) : Nat := swapHalves64 (lookup3 (upperAscii name))

/-- The `name_hash` of spec §4.1, written from the spec's words: uppercase,
replace forward slashes with backslashes, Jenkins lookup3, swap the halves. -/
def specNameHash (name : List Nat) : Nat :=
  swapHalves64 (lookup3 (replaceSlash (upperAscii name)))

/-! ## BLTE (src/blte.rs) -/

/-- `parse_blte_chunk` (src/blte.rs:6-16). `data[0]` panics on an empty
chunk; tag `N` (0x4e) is a literal, tag `Z` (0x5a) inflates, anything else
is the error "invalid encoding". -/
def parseBlteChunk (inflate : List Nat → Except String (List Nat))
    (data : List Nat) : ROut (List Nat) :=
  if data.length = 0 then ROut.crash ("index out of bounds")
  else if data.headD 0 = 78 then ROut.ok data.tail
  else if data.headD 0 = 90 then
    match inflate data.tail with
    | Except.ok d => ROut.ok d
    | Except.error _ => ROut.err ("inflate error")
  else ROut.err ("invalid encoding")

/-- The BLTE magic `"BLTE"`. -/
def blteMagic : List Nat := [66, 76, 84, 69]

/-- Read `n` chunk descriptors `(compressed, uncompressed, checksum)`
(u32be, u32be, u128be) from `p`. -/
def readChunkInfo (p : List Nat) : Nat → List (Nat × Nat × Nat)
  | 0 => []
  | n + 1 =>
    (beVal (p.take 4), beVal (bytesAt p 4 4), beVal (bytesAt p 8 16))
      :: readChunkInfo (p.drop 24) n

/-- The per-chunk loop of `blte::parse` (src/blte.rs:40-48): slice the
declared compressed bytes (panics when they overrun), verify the chunk
checksum, decode, verify the declared uncompressed size, accumulate; after
the last chunk any remaining bytes are the error "trailing blte data". -/
def blteChunkLoop (inflate : List Nat → Except String (List Nat)) :
    List (Nat × Nat × Nat) → List Nat → List Nat → ROut (List Nat)
  | [], p, acc =>
    if p.length = 0 then ROut.ok acc else ROut.err ("trailing blte data")
  | (cs, us, ck) :: rest, p, acc =>
    if p.length < cs then ROut.crash ("range end index out of range")
    else
      let chunk := p.take cs
      if md5hash chunk ≠ ck then ROut.err ("chunk checksum error")
      else
        match parseBlteChunk inflate chunk with
        | ROut.ok d =>
          if d.length ≠ us then ROut.err ("invalid uncompressed size")
          else blteChunkLoop inflate rest (p.drop cs) (acc ++ d)
        | ROut.err e => ROut.err e
        | ROut.crash e => ROut.crash e

/-- `blte::parse` (src/blte.rs:18-50), with the expected container checksum
as first argument as declared at src/blte.rs:18. -/
def blteParse (inflate : List Nat → Except String (List Nat))
    (checksum : Nat) (data : List Nat) : ROut (List Nat) :=
  if data.length < 12 then ROut.err ("truncated header")
  else if bytesAt data 0 4 ≠ blteMagic then ROut.err ("not BLTE format")
  else
    let hs := beVal (bytesAt data 4 4)
    if hs = 0 then
      if md5hash data ≠ checksum then ROut.err ("whole blte checksum error")
      else parseBlteChunk inflate (data.drop 8)
    else
      if data.length - 8 < sub64 hs 8 then ROut.err ("truncated blte data")
      else if md5hash (data.take hs) ≠ checksum then
        ROut.err ("blte header checksum error")
      else if bytesAt data 8 1 ≠ [15] then ROut.err ("bad flag byte")
      else
        let cc := beVal (bytesAt data 9 3)
        if hs ≠ cc * 24 + 12 then ROut.err ("header size mismatch")
        else blteChunkLoop inflate (readChunkInfo (data.drop 12) cc)
          (data.drop hs) []

/-- Header-only view of a framed BLTE input: the declared chunk descriptor
list, when the structural checks of `blte::parse` up to the descriptor table
pass and the header size is nonzero. -/
def blteChunkInfo (data : List Nat) : Option (List (Nat × Nat × Nat)) :=
  if data.length < 12 then none
  else if bytesAt data 0 4 ≠ blteMagic then none
  else
    let hs := beVal (bytesAt data 4 4)
    if hs = 0 then none
    else if data.length - 8 < sub64 hs 8 then none
    else if bytesAt data 8 1 ≠ [15] then none
    else
      let cc := beVal (bytesAt data 9 3)
      if hs ≠ cc * 24 + 12 then none
      else some (readChunkInfo (data.drop 12) cc)

/-- Decode the declared chunks of a BLTE body in declared order, with no
checksum or size checks: the plain per-chunk decode of spec §4.2. -/
def chunkDecodeList (inflate : List Nat → Except String (List Nat)) :
    List (Nat × Nat × Nat) → List Nat → Option (List (List Nat))
  | [], _ => some []
  | (cs, _, _) :: rest, p =>
    match parseBlteChunk inflate (p.take cs) with
    | ROut.ok d => (chunkDecodeList inflate rest (p.drop cs)).map (fun ds => d :: ds)
    | _ => none

/-- Every declared compressed chunk is nonempty and fits into the remaining
body bytes. -/
def chunksFit : List (Nat × Nat × Nat) → List Nat → Bool
  | [], _ => true
  | (cs, _, _) :: rest, p => 0 < cs && cs ≤ p.length && chunksFit rest (p.drop cs)

/-- All slicing and indexing performed by `blte::parse` on this input stays
in bounds: on a framed input, every declared compressed chunk is nonempty
and fits the body. -/
def blteSliceSafe (data : List Nat) : Bool :=
  match blteChunkInfo data with
  | some ci => chunksFit ci (data.drop (beVal (bytesAt data 4 4)))
  | none => true

/-! ## Encoding table (src/encoding.rs) -/

/-- The parsed encoding table (src/encoding.rs:9-15). -/
structure Encoding where
  especs : List (List Nat)
  cmap : List (Nat × (List Nat × Nat))
  emap : List (Nat × (Nat × Nat))
  espec : List Nat
deriving DecidableEq

/-- `Encoding::c2e` (src/encoding.rs:18-26): first encoding key listed for
the content key. -/
def c2e (e : Encoding) (c : Nat) : Except String Nat :=
  match alLookup e.cmap c with
  | none => Except.error ("no encoding key for content key")
  | some (ekeys, _) =>
    match ekeys with
    | [] => Except.error ("missing encoding key for content key")
    | k :: _ => Except.ok k

/-- Read `n` `(u128be, u128be)` page-directory entries. -/
def readPageDir (p : List Nat) : Nat → List (Nat × Nat)
  | 0 => []
  | n + 1 => (beVal (p.take 16), beVal (bytesAt p 16 16)) :: readPageDir (p.drop 32) n

/-- Read `n` big-endian 128-bit keys at consecutive 16-byte offsets. -/
def readKeys (p : List Nat) : Nat → List Nat
  | 0 => []
  | n + 1 => beVal (p.take 16) :: readKeys (p.drop 16) n

/-- The c-page entry loop of `encoding::parse` (src/encoding.rs:62-74): the
loop runs while at least 22 bytes remain AND the next byte differs from
`b'0'` (0x30, the ASCII digit zero — not the 0x00 byte); each pass reads
`(key_count: u8, file_size: 40-bit BE, content_key: u128be,
key_count × u128be)` and inserts into the map. -/
def encodingCPageLoop (firstKey : Nat) :
    Bool → List (Nat × (List Nat × Nat)) → List Nat → Nat →
    ROut (List (Nat × (List Nat × Nat)))
  | _, m, _, 0 => ROut.ok m
  | first, m, page, fuel + 1 =>
    if page.length < 22 || page.headD 0 = 48 then ROut.ok m
    else
      let keyCount := page.headD 0
      let fileSize := (beVal (bytesAt page 1 1)) <<< 32 ||| beVal (bytesAt page 2 4)
      let ckey := beVal (bytesAt page 6 16)
      if first && firstKey ≠ ckey then ROut.err ("first key mismatch in content")
      else if page.length - 22 < keyCount * 16 then
        ROut.err ("page remaining less than key data")
      else
        let ekeys := readKeys (page.drop 22) keyCount
        encodingCPageLoop firstKey false (alInsert m ckey (ekeys, fileSize))
          (page.drop (22 + 16 * keyCount)) fuel

/-- The c-page directory walk of `encoding::parse` (src/encoding.rs:54-76):
verify each page checksum against the directory, run the entry loop over the
page, advance by the page size. Slicing a missing page panics. -/
def encodingCPages (pagesize : Nat) :
    List (Nat × Nat) → List Nat → List (Nat × (List Nat × Nat)) →
    ROut (List (Nat × (List Nat × Nat)) × List Nat)
  | [], p, m => ROut.ok (m, p)
  | (firstKey, hash) :: rest, p, m =>
    if p.length < pagesize then ROut.crash ("range end index out of range")
    else if hash ≠ md5hash (p.take pagesize) then ROut.err ("content page checksum")
    else
      match encodingCPageLoop firstKey true m (p.take pagesize) pagesize with
      | ROut.ok m2 => encodingCPages pagesize rest (p.drop pagesize) m2
      | ROut.err e => ROut.err e
      | ROut.crash e => ROut.crash e

/-- The e-page entry loop of `encoding::parse` (src/encoding.rs:91-98): runs
while at least 25 bytes remain AND the next byte differs from `b'0'`; each
pass reads `(encoding_key: u128be, espec_index: u32be, file_size: 40-bit
BE)`. -/
def encodingEPageLoop (firstKey : Nat) :
    Bool → List (Nat × (Nat × Nat)) → List Nat → Nat →
    ROut (List (Nat × (Nat × Nat)))
  | _, m, _, 0 => ROut.ok m
  | first, m, page, fuel + 1 =>
    if page.length < 25 || page.headD 0 = 48 then ROut.ok m
    else
      let ekey := beVal (page.take 16)
      let index := beVal (bytesAt page 16 4)
      let fileSize := (beVal (bytesAt page 20 1)) <<< 32 ||| beVal (bytesAt page 21 4)
      if first && firstKey ≠ ekey then ROut.err ("first key mismatch in content")
      else
        encodingEPageLoop firstKey false (alInsert m ekey (index, fileSize))
          (page.drop 25) fuel

/-- The e-page directory walk of `encoding::parse` (src/encoding.rs:83-99). -/
def encodingEPages (pagesize : Nat) :
    List (Nat × Nat) → List Nat → List (Nat × (Nat × Nat)) →
    ROut (List (Nat × (Nat × Nat)) × List Nat)
  | [], p, m => ROut.ok (m, p)
  | (firstKey, hash) :: rest, p, m =>
    if p.length < pagesize then ROut.crash ("range end index out of range")
    else if hash ≠ md5hash (p.take pagesize) then ROut.err ("encoding page checksum")
    else
      match encodingEPageLoop firstKey true m (p.take pagesize) pagesize with
      | ROut.ok m2 => encodingEPages pagesize rest (p.drop pagesize) m2
      | ROut.err e => ROut.err e
      | ROut.crash e => ROut.crash e

/-- `encoding::parse` (src/encoding.rs:29-108). -/
def encodingParse (data : List Nat) : ROut Encoding :=
  if data.length < 16 then ROut.err ("truncated encoding header")
  else if bytesAt data 0 2 ≠ [69, 78] then ROut.err ("not encoding format")
  else if bytesAt data 2 1 ≠ [1] then ROut.err ("unsupported encoding version")
  else if bytesAt data 3 1 ≠ [16] then ROut.err ("unsupported ckey hash size")
  else if bytesAt data 4 1 ≠ [16] then ROut.err ("unsupported ekey hash size")
  else
    let cpagekb := beVal (bytesAt data 5 2)
    let ccount := beVal (bytesAt data 9 4)
    if data.length < 17 then ROut.crash ("advance out of bounds")
    else
      let epagekb := beVal (bytesAt data 7 2)
      let ecount := beVal (bytesAt data 13 4)
      if data.length < 18 then ROut.crash ("advance out of bounds")
      else if bytesAt data 17 1 ≠ [0] then
        ROut.err ("unexpected nonzero byte in header")
      else if data.length < 22 then ROut.crash ("advance out of bounds")
      else
        let especSize := beVal (bytesAt data 18 4)
        if data.length - 22 < especSize then ROut.err ("truncated espec table")
        else
          let especs := (bytesAt data 22 especSize).splitOn 0
          if !especs.all utf8Valid then ROut.err ("parsing encoding espec")
          else
            let p0 := data.drop (22 + especSize)
            if p0.length < ccount * 32 then
              ROut.err ("remaining less than cpage directory")
            else
              let cdir := readPageDir p0 ccount
              match encodingCPages (cpagekb * 1024) cdir (p0.drop (32 * ccount)) [] with
              | ROut.err e => ROut.err e
              | ROut.crash e => ROut.crash e
              | ROut.ok (cmap, p1) =>
                if p1.length < ecount * 32 then
                  ROut.err ("remaining less than epage directory")
                else
                  let edir := readPageDir p1 ecount
                  match encodingEPages (epagekb * 1024) edir (p1.drop (32 * ecount)) [] with
                  | ROut.err e => ROut.err e
                  | ROut.crash e => ROut.crash e
                  | ROut.ok (emap, p2) =>
                    if !utf8Valid p2 then ROut.err ("parsing trailing espec")
                    else ROut.ok ⟨especs, cmap, emap, p2⟩

/-! ## Root table (src/root.rs) -/

/-- One record of the root table (src/root.rs:7-11). -/
structure RootData where
  fdid : Nat
  contentKey : Nat
  nameHash : Option Nat
deriving DecidableEq

/-- Signed 32-bit little-endian value of the first four bytes. -/
def i32ValLe (l : List Nat) : Int :=
  let v := leVal (l.take 4)
  if v < 2147483648 then (v : Int) else (v : Int) - 4294967296

/-- Wrap an integer to signed 32-bit range (release-mode `i32` addition). -/
def wrapI32 (x : Int) : Int := (x + 2147483648) % 4294967296 - 2147483648

/-- The file-data-id delta decoding of `root::parse` (src/root.rs:63-68):
ids start at `-1`, each record adds `delta + 1`; a negative id fails the
`u32` conversion. -/
def rootFdids (fdid : Int) (p : List Nat) : Nat → Except String (List Nat)
  | 0 => Except.ok []
  | n + 1 =>
    let f := wrapI32 (fdid + i32ValLe p + 1)
    if f < 0 then
      Except.error ("out of range integral type conversion attempted")
    else (rootFdids f (p.drop 4) n).map (fun rest => f.toNat :: rest)

/-- Zip file ids, content keys and name hashes into records, as the loop at
src/root.rs:88-94 does. -/
def mkRootRecords : List Nat → List Nat → List (Option Nat) → List RootData
  | f :: fs, c :: cs, n :: ns => ⟨f, c, n⟩ :: mkRootRecords fs cs ns
  | _, _, _ => []

/-- Read `n` interleaved `(content_key: u128be, name_hash: u64le)` pairs. -/
def rootInterleaved (p : List Nat) : Nat → List Nat × List (Option Nat)
  | 0 => ([], [])
  | n + 1 =>
    let r := rootInterleaved (p.drop 24) n
    (beVal (p.take 16) :: r.1, some (leVal (bytesAt p 16 8)) :: r.2)

/-- Read `n` little-endian 64-bit name hashes. -/
def readLe64List (p : List Nat) : Nat → List Nat
  | 0 => []
  | n + 1 => leVal (p.take 8) :: readLe64List (p.drop 8) n

/-- One pass of the block loop of `root::parse` (src/root.rs:54-95): block
header `(num_records, content_flags, locale_flags)` (u32le each), the delta
block, then the key data — interleaved for variant B; for variant A the
content keys, then the name hashes unless `can_skip` holds and the block's
content flags carry bit 0x10000000. Returns the records and the unconsumed
rest of the stream. -/
def parseRootBlock (interleave canSkip : Bool) (p : List Nat) :
    ROut (List RootData × List Nat) :=
  if p.length < 12 then ROut.err ("truncated root cas block")
  else
    let numRecords := leVal (bytesAt p 0 4)
    let contentFlags := leVal (bytesAt p 4 4)
    let q := p.drop 12
    if q.length < 4 * numRecords then
      ROut.err ("truncated filedataid delta block")
    else
      match rootFdids (-1) q numRecords with
      | Except.error e => ROut.err e
      | Except.ok fdids =>
        let r := q.drop (4 * numRecords)
        if interleave then
          if r.length < 24 * numRecords then ROut.crash ("advance out of bounds")
          else
            let pairs := rootInterleaved r numRecords
            ROut.ok (mkRootRecords fdids pairs.1 pairs.2, r.drop (24 * numRecords))
        else
          if r.length < 16 * numRecords then ROut.crash ("advance out of bounds")
          else
            let ckeys := readKeys r numRecords
            let r2 := r.drop (16 * numRecords)
            if !canSkip || contentFlags &&& 268435456 = 0 then
              if r2.length < 8 * numRecords then ROut.crash ("advance out of bounds")
              else
                ROut.ok (mkRootRecords fdids ckeys
                  ((readLe64List r2 numRecords).map some), r2.drop (8 * numRecords))
            else
              ROut.ok (mkRootRecords fdids ckeys (List.replicate numRecords none), r2)

/-- The block loop of `root::parse`: blocks repeat until the stream is
exhausted. Every block consumes at least 12 bytes, so a fuel of the stream
length always suffices; the fuel-exhaustion error is unreachable from
`rootParse`. -/
def parseRootBlocks (interleave canSkip : Bool) (p : List Nat) :
    Nat → ROut (List RootData)
  | 0 => if p.length = 0 then ROut.ok [] else ROut.err ("root fuel exhausted")
  | fuel + 1 =>
    if p.length = 0 then ROut.ok []
    else
      match parseRootBlock interleave canSkip p with
      | ROut.ok (recs, rest) =>
        match parseRootBlocks interleave canSkip rest fuel with
        | ROut.ok more => ROut.ok (recs ++ more)
        | ROut.err e => ROut.err e
        | ROut.crash e => ROut.crash e
      | ROut.err e => ROut.err e
      | ROut.crash e => ROut.crash e

/-- The parsed root table (src/root.rs:13-17): the record vector and the two
index maps (`HashMap` collect — the last binding for a key wins). -/
structure Root where
  data : List RootData
  fmap : List (Nat × Nat)
  nmap : List (Nat × Nat)
deriving DecidableEq

/-- Build the file-id map of `root::parse` (src/root.rs:97-101). -/
def rootFmap (recs : List RootData) : List (Nat × Nat) :=
  recs.enum.foldl (fun m p => alInsert m p.2.fdid p.1) []

/-- Build the name-hash map of `root::parse` (src/root.rs:102-106). -/
def rootNmap (recs : List RootData) : List (Nat × Nat) :=
  recs.enum.foldl
    (fun m p => match p.2.nameHash with
      | some h => alInsert m h p.1
      | none => m) []

/-- Wrap the parsed records into the `Root` value built at
src/root.rs:96-108. -/
def rootFinish : ROut (List RootData) → ROut Root
  | ROut.ok recs => ROut.ok ⟨recs, rootFmap recs, rootNmap recs⟩
  | ROut.err e => ROut.err e
  | ROut.crash e => ROut.crash e

/-- `root::parse` (src/root.rs:37-109): variant A when the stream starts
with magic `"TSFM"` (non-interleaved, skipping permitted exactly when the
two header counters differ), variant B otherwise (interleaved). -/
def rootParse (data : List Nat) : ROut Root :=
  if data.length < 4 then ROut.err ("empty root?")
  else if bytesAt data 0 4 = [84, 83, 70, 77] then
    if data.length - 4 < 8 then ROut.err ("truncated root header")
    else
      rootFinish (parseRootBlocks false
        (decide (leVal (bytesAt data 4 4) ≠ leVal (bytesAt data 8 4)))
        (data.drop 12) (data.length))
  else rootFinish (parseRootBlocks true false data data.length)

/-- `Root::n2c` (src/root.rs:23-34): hash the name with `n2cHash`, look it
up in the name map, return that record's content key. -/
def rootN2c (r : Root) (name : List Nat) : Except String Nat :=
  match alLookup r.nmap (n2cHash name) with
  | none => Except.error ("missing name hash in root")
  | some i => Except.ok ((r.data.getD i ⟨0, 0, none⟩).contentKey)

/-! ## Archive index (src/archive.rs) -/

/-- The entry loop within one 4096-byte archive-index block
(src/archive.rs:75-87): entries `(encoding_key: u128be, size: u32be,
offset: u32be)` repeat while 24 bytes remain; a duplicate key across the
whole index is fatal; the loop breaks (inclusively) at the block's last-key
sentinel. Returns the map and whether the sentinel was found. -/
def archiveEntriesLoop (name lastEkey : Nat) :
    List Nat → List (Nat × (Nat × Nat × Nat)) → Nat →
    ROut (List (Nat × (Nat × Nat × Nat)) × Bool)
  | _, m, 0 => ROut.ok (m, false)
  | block, m, fuel + 1 =>
    if block.length < 24 then ROut.ok (m, false)
    else
      let ekey := beVal (block.take 16)
      let size := beVal (bytesAt block 16 4)
      let off := beVal (bytesAt block 20 4)
      if (alLookup m ekey).isSome then ROut.err ("duplicate key in index")
      else
        let m2 := alInsert m ekey (name, size, off)
        if ekey = lastEkey then ROut.ok (m2, true)
        else archiveEntriesLoop name lastEkey (block.drop 24) m2 fuel

/-- The block walk of `archive::parse_index` (src/archive.rs:66-90): for
each block, check the block checksum (high 64 bits of its MD5) against the
table of contents, run the entry loop, and require the last-key sentinel. -/
def archiveBlocks (name : Nat) :
    List Nat → List Nat → List Nat → List (Nat × (Nat × Nat × Nat)) → Nat →
    ROut (List (Nat × (Nat × Nat × Nat)))
  | _, _, _, m, 0 => ROut.ok m
  | p, entries, hashes, m, k + 1 =>
    let block := p.take 4096
    if md5hash block >>> 64 ≠ beVal (hashes.take 8) then
      ROut.err ("archive index block checksum")
    else
      let lastEkey := beVal (entries.take 16)
      match archiveEntriesLoop name lastEkey block m (block.length) with
      | ROut.ok (m2, found) =>
        if !found then ROut.err ("last ekey mismatch")
        else archiveBlocks name (p.drop 4096) (entries.drop 16) (hashes.drop 8) m2 k
      | ROut.err e => ROut.err e
      | ROut.crash e => ROut.crash e

/-- `archive::parse_index` (src/archive.rs:14-96). The body must split into
whole `4096 + 24`-byte blocks; the full MD5 of the 28-byte footer must equal
the supplied archive key `name`; the table of contents and the footer carry
truncated (high-64-bit) checksums; the final map size must equal the footer
element count. -/
def archiveParseIndex (name : Nat) (data : List Nat) :
    ROut (List (Nat × (Nat × Nat × Nat))) :=
  if data.length < 28 then ROut.err ("truncated archive index data")
  else
    let nf := data.length - 28
    let numBlocks := nf / 4120
    if nf % 4120 ≠ 0 then ROut.err ("invalid archive index format")
    else
      let footer := data.drop nf
      if md5hash footer ≠ name then ROut.err ("bad footer name")
      else
        let tocSize := numBlocks * 24
        let toc := bytesAt data (nf - tocSize) tocSize
        if md5hash toc >>> 64 ≠ beVal (bytesAt footer 0 8) then
          ROut.err ("archive index toc checksum")
        else if bytesAt footer 8 1 ≠ [1] then
          ROut.err ("unexpected archive index version")
        else if bytesAt footer 9 1 ≠ [0] then
          ROut.err ("unexpected archive index nonzero byte")
        else if bytesAt footer 10 1 ≠ [0] then
          ROut.err ("unexpected archive index nonzero byte")
        else if bytesAt footer 11 1 ≠ [4] then
          ROut.err ("unexpected archive index block size")
        else if bytesAt footer 12 1 ≠ [4] then
          ROut.err ("unexpected archive index offset bytes")
        else if bytesAt footer 13 1 ≠ [4] then
          ROut.err ("unexpected archive index size bytes")
        else if bytesAt footer 14 1 ≠ [16] then
          ROut.err ("unexpected archive index key size")
        else if bytesAt footer 15 1 ≠ [8] then
          ROut.err ("unexpected archive index checksum size")
        else
          let numElements := leVal (bytesAt footer 16 4)
          if md5hash (bytesAt footer 8 12 ++ List.replicate 8 0) >>> 64
              ≠ beVal (bytesAt footer 20 8) then
            ROut.err ("archive index footer checksum")
          else
            match archiveBlocks name (data.take (nf - tocSize))
              (bytesAt data (nf - tocSize) (16 * numBlocks))
              (bytesAt data (nf - tocSize + 16 * numBlocks) (8 * numBlocks))
              [] numBlocks with
            | ROut.ok m =>
              if m.length ≠ numElements then
                ROut.err ("num_elements wrong in index")
              else ROut.ok m
            | ROut.err e => ROut.err e
            | ROut.crash e => ROut.crash e

/-! ## Data-table string view (src/wdc3.rs) -/

/-- The WDC3 header (src/wdc3.rs:7-28), all fields little-endian. -/
structure Wdc3Header where
  magic : List Nat
  recordCount : Nat
  fieldCount : Nat
  recordSize : Nat
  stringTableSize : Nat
  tableHash : Nat
  layoutHash : Nat
  minId : Nat
  maxId : Nat
  locale : Nat
  flags : Nat
  idIndex : Nat
  totalFieldCount : Nat
  bitpackedDataOffset : Nat
  lookupColumnCount : Nat
  fieldStorageInfoSize : Nat
  commonDataSize : Nat
  palletDataSize : Nat
  sectionCount : Nat
deriving DecidableEq

/-- A WDC3 section header (src/wdc3.rs:30-41). -/
structure Wdc3SectionHeader where
  tactKeyHash : Nat
  fileOffset : Nat
  recordCount : Nat
  stringTableSize : Nat
  offsetRecordsEnd : Nat
  idListSize : Nat
  relationshipDataSize : Nat
  offsetMapIdCount : Nat
  copyTableCount : Nat
deriving DecidableEq

/-- A parsed WDC3 section (src/wdc3.rs:79-97). -/
structure Wdc3Section where
  records : List (List Nat)
  stringTable : List Nat
  idList : List Nat
  copyTable : List (Nat × Nat)
  offsetMap : List (Nat × Nat)
  relationshipData : List Nat
deriving DecidableEq

/-- A parsed WDC3 file (src/wdc3.rs:113-129). -/
structure Wdc3File where
  header : Wdc3Header
  sectionHeaders : List Wdc3SectionHeader
  fields : List (Nat × Nat)
  fieldInfo : List (List Nat)
  palletData : List Nat
  commonData : List Nat
  sections : List Wdc3Section
deriving DecidableEq

/-- Read the fixed-size (72-byte) WDC3 header. -/
def wdc3ParseHeader (p : List Nat) : Option (Wdc3Header × List Nat) :=
  if p.length < 72 then none
  else
    some (⟨bytesAt p 0 4, leVal (bytesAt p 4 4), leVal (bytesAt p 8 4),
      leVal (bytesAt p 12 4), leVal (bytesAt p 16 4), leVal (bytesAt p 20 4),
      leVal (bytesAt p 24 4), leVal (bytesAt p 28 4), leVal (bytesAt p 32 4),
      leVal (bytesAt p 36 4), leVal (bytesAt p 40 2), leVal (bytesAt p 42 2),
      leVal (bytesAt p 44 4), leVal (bytesAt p 48 4), leVal (bytesAt p 52 4),
      leVal (bytesAt p 56 4), leVal (bytesAt p 60 4), leVal (bytesAt p 64 4),
      leVal (bytesAt p 68 4)⟩, p.drop 72)

/-- Read `n` fixed-size (40-byte) WDC3 section headers. -/
def wdc3ParseSectionHeaders (p : List Nat) :
    Nat → Option (List Wdc3SectionHeader × List Nat)
  | 0 => some ([], p)
  | n + 1 =>
    if p.length < 40 then none
    else
      let sh : Wdc3SectionHeader :=
        ⟨leVal (bytesAt p 0 8), leVal (bytesAt p 8 4), leVal (bytesAt p 12 4),
        leVal (bytesAt p 16 4), leVal (bytesAt p 20 4), leVal (bytesAt p 24 4),
        leVal (bytesAt p 28 4), leVal (bytesAt p 32 4), leVal (bytesAt p 36 4)⟩
      (wdc3ParseSectionHeaders (p.drop 40) n).map (fun r => (sh :: r.1, r.2))

/-- Read `n` consecutive fixed-size byte records. -/
def readRecords (width : Nat) (p : List Nat) : Nat → List (List Nat)
  | 0 => []
  | n + 1 => p.take width :: readRecords width (p.drop width) n

/-- Read `n` little-endian 32-bit values. -/
def readLe32List (p : List Nat) : Nat → List Nat
  | 0 => []
  | n + 1 => leVal (p.take 4) :: readLe32List (p.drop 4) n

/-- Read `n` `(u32le, u32le)` copy-table entries. -/
def readCopyTable (p : List Nat) : Nat → List (Nat × Nat)
  | 0 => []
  | n + 1 => (leVal (p.take 4), leVal (bytesAt p 4 4)) :: readCopyTable (p.drop 8) n

/-- Read `n` `(u32le, u16le)` offset-map entries. -/
def readOffsetMap (p : List Nat) : Nat → List (Nat × Nat)
  | 0 => []
  | n + 1 => (leVal (p.take 4), leVal (bytesAt p 4 2)) :: readOffsetMap (p.drop 6) n

/-- Read one section given the file header and its section header
(src/wdc3.rs:79-97): records of `record_size` bytes, the string table, the
id list (`id_list_size / 4` u32le values), copy table, offset map, and
relationship data. -/
def wdc3ParseSection (h : Wdc3Header) (sh : Wdc3SectionHeader)
    (p : List Nat) : Option (Wdc3Section × List Nat) :=
  let rlen := sh.recordCount * h.recordSize
  let ilen := 4 * (sh.idListSize / 4)
  let total := rlen + sh.stringTableSize + ilen + 8 * sh.copyTableCount
    + 6 * sh.offsetMapIdCount + sh.relationshipDataSize
  if p.length < total then none
  else
    some (⟨readRecords h.recordSize p sh.recordCount,
      bytesAt p rlen sh.stringTableSize,
      readLe32List (p.drop (rlen + sh.stringTableSize)) (sh.idListSize / 4),
      readCopyTable (p.drop (rlen + sh.stringTableSize + ilen)) sh.copyTableCount,
      readOffsetMap (p.drop (rlen + sh.stringTableSize + ilen + 8 * sh.copyTableCount))
        sh.offsetMapIdCount,
      bytesAt p (rlen + sh.stringTableSize + ilen + 8 * sh.copyTableCount
        + 6 * sh.offsetMapIdCount) sh.relationshipDataSize⟩,
      p.drop total)

/-- Read the sections one after another (src/wdc3.rs:99-111). -/
def wdc3ParseSections (h : Wdc3Header) :
    List Wdc3SectionHeader → List Nat → Option (List Wdc3Section × List Nat)
  | [], p => some ([], p)
  | sh :: rest, p =>
    match wdc3ParseSection h sh p with
    | none => none
    | some (s, p2) =>
      (wdc3ParseSections h rest p2).map (fun r => (s :: r.1, r.2))

/-- Read `n` `(i16le, u16le)` field structures (kept raw; unused). -/
def readFieldStructs (p : List Nat) : Nat → List (Nat × Nat)
  | 0 => []
  | n + 1 => (leVal (p.take 2), leVal (bytesAt p 2 2)) :: readFieldStructs (p.drop 4) n

/-- `File::parse` of src/wdc3.rs (113-129): header, section headers, field
structures, field storage info, pallet data, common data, then the
sections; trailing bytes are discarded by `.1` at src/wdc3.rs:136. -/
def wdc3FileParse (data : List Nat) : Option Wdc3File :=
  match wdc3ParseHeader data with
  | none => none
  | some (h, p1) =>
    match wdc3ParseSectionHeaders p1 h.sectionCount with
    | none => none
    | some (shs, p2) =>
      if p2.length < 4 * h.totalFieldCount then none
      else
        let fields := readFieldStructs p2 h.totalFieldCount
        let p3 := p2.drop (4 * h.totalFieldCount)
        if p3.length < 24 * h.totalFieldCount then none
        else
          let fieldInfo := readRecords 24 p3 h.totalFieldCount
          let p4 := p3.drop (24 * h.totalFieldCount)
          if p4.length < h.palletDataSize then none
          else
            let palletData := p4.take h.palletDataSize
            let p5 := p4.drop h.palletDataSize
            if p5.length < h.commonDataSize then none
            else
              let commonData := p5.take h.commonDataSize
              let p6 := p5.drop h.commonDataSize
              match wdc3ParseSections h shs p6 with
              | none => none
              | some (sections, _) =>
                some ⟨h, shs, fields, fieldInfo, palletData, commonData,
                  sections⟩

/-- The null-terminated byte string at the start of `l` (ends at the first
zero byte or at the end of the table). -/
def nullTerm (l : List Nat) : List Nat := l.takeWhile (fun b => b ≠ 0)

/-- The string-table byte offset read for record `k`, field offset `o`:
`value - (num_records - k) * record_size + o` in wrapping `usize`
arithmetic (src/wdc3.rs:160). -/
def wdc3StrPos (value numRecords k rsize o : Nat) : Nat :=
  add64 (sub64 value ((numRecords - k) * rsize)) o

/-- The list of strings of record `k` per the spec's words: for each 4-byte
offset `o` within the record, read a 32-bit little-endian `value` and take
the null-terminated string at byte offset
`value - (num_records - k) * record_size + o` of the string table. -/
def wdc3RecordStrings (stringTable : List Nat) (numRecords rsize k : Nat)
    (rec : List Nat) : List (List Nat) :=
  (List.range (rsize / 4)).map (fun j =>
    nullTerm (stringTable.drop
      (wdc3StrPos (leVal (bytesAt rec (4 * j) 4)) numRecords k rsize (4 * j))))

/-- The same extraction with the `String::from_utf8` validity check of
src/wdc3.rs:157-165 (context message "wdc3 string field parsing"). -/
def wdc3RecordStringsChecked (stringTable : List Nat)
    (numRecords rsize k : Nat) (rec : List Nat) :
    Except String (List (List Nat)) :=
  let raw := wdc3RecordStrings stringTable numRecords rsize k rec
  if raw.all utf8Valid then Except.ok raw
  else Except.error ("wdc3 string field parsing")

/-- Collect per-record results, failing on the first error
(`collect::<Result<Vec<_>>>`). -/
def exceptMapM {α β : Type} (f : α → Except String β) :
    List α → Except String (List β)
  | [] => Except.ok []
  | a :: rest =>
    match f a with
    | Except.error e => Except.error e
    | Except.ok b =>
      match exceptMapM f rest with
      | Except.error e => Except.error e
      | Except.ok bs => Except.ok (b :: bs)

/-- Collect `(id, value)` pairs into a map, the last binding winning
(`HashMap` collect, src/wdc3.rs:170). -/
def collectMap {α : Type} (l : List (Nat × α)) : List (Nat × α) :=
  l.foldl (fun m p => alInsert m p.1 p.2) []

/-- `wdc3::strings` (src/wdc3.rs:131-171): accepts one section with
`flags == 4`, a record size divisible by 4 and an id list matching the
record count, and maps each id to its record's string fields. -/
def strings (data : List Nat) : ROut (List (Nat × List (List Nat))) :=
  match wdc3FileParse data with
  | none => ROut.err ("parse error")
  | some f =>
    if f.header.flags ≠ 4 then ROut.err ("unsupported flags")
    else
      match f.sections with
      | [sec] =>
        let numRecords := sec.records.length
        if sec.idList.length ≠ numRecords then
          ROut.err ("unexpected record count")
        else
          let rsize := f.header.recordSize
          if rsize % 4 ≠ 0 then ROut.err ("unexpected record size")
          else
            match exceptMapM
              (fun p => wdc3RecordStringsChecked sec.stringTable numRecords
                rsize p.1 p.2) sec.records.enum with
            | Except.error e => ROut.err e
            | Except.ok values => ROut.ok (collectMap (sec.idList.zip values))
      | _ => ROut.err ("unsupported number of sections")

/-- The mapping described by the spec for an accepted table: `id_list[k]`
maps to the strings of record `k`, later duplicate ids winning. -/
def wdc3SpecMap (f : Wdc3File) (sec : Wdc3Section) :
    List (Nat × List (List Nat)) :=
  collectMap (sec.idList.zip (sec.records.enum.map (fun p =>
    wdc3RecordStrings sec.stringTable sec.records.length f.header.recordSize
      p.1 p.2)))

/-! ## fetch_content (src/main.rs:332-347) -/

/-- Modelled from the spec: main.rs:344 calls `blte::parse(&response)` with
a single argument, while src's blte.rs:18 declares
`parse(checksum: u128, data: &[u8])`; the call site thus refers to a
one-argument `blte::parse` that is not under src/. It is modelled as the
BLTE decode of spec §4.2 minus the container-hash comparison, since the
call supplies no checksum to compare against. -/
def blteParseNoCk (inflate : List Nat → Except String (List Nat))
    (data : List Nat) : ROut (List Nat) :=
  if data.length < 12 then ROut.err ("truncated header")
  else if bytesAt data 0 4 ≠ blteMagic then ROut.err ("not BLTE format")
  else
    let hs := beVal (bytesAt data 4 4)
    if hs = 0 then parseBlteChunk inflate (data.drop 8)
    else
      if data.length - 8 < sub64 hs 8 then ROut.err ("truncated blte data")
      else if bytesAt data 8 1 ≠ [15] then ROut.err ("bad flag byte")
      else
        let cc := beVal (bytesAt data 9 3)
        if hs ≠ cc * 24 + 12 then ROut.err ("header size mismatch")
        else blteChunkLoop inflate (readChunkInfo (data.drop 12) cc)
          (data.drop hs) []

/-- `fetch_content` (src/main.rs:332-347): resolve the content key through
the encoding table to an encoding key, look it up in the archive index,
issue a ranged fetch for bytes `offset ..= offset + size - 1` of the
archive blob, BLTE-decode the response (per the call site, with no expected
container checksum), and verify the MD5 of the decoded bytes against the
content key. -/
def fetchContent (inflate : List Nat → Except String (List Nat))
    (fetcher : Nat → Nat × Nat → Except String (List Nat))
    (enc : Encoding) (imap : List (Nat × (Nat × Nat × Nat))) (ckey : Nat) :
    ROut (List Nat) :=
  match c2e enc ckey with
  | Except.error e => ROut.err e
  | Except.ok ekey =>
    match alLookup imap ekey with
    | none => ROut.err ("missing index key")
    | some (archive, size, offset) =>
      match fetcher archive (offset, offset + size - 1) with
      | Except.error e => ROut.err e
      | Except.ok response =>
        match blteParseNoCk inflate response with
        | ROut.ok bytes =>
          if md5hash bytes ≠ ckey then ROut.err ("checksum fail")
          else ROut.ok bytes
        | ROut.err e => ROut.err e
        | ROut.crash e => ROut.crash e

/-! ## The CdnClient throttle (src/main.rs:264-285) -/

/-- Control state of one `CdnClient::fetch_bytes` task: before the
semaphore, holding the just-acquired permit, running the inner request, or
finished. -/
inductive FetchPc where
  | start
  | holding
  | inflight
  | done
deriving DecidableEq

/-- Tasks plus the semaphore's available permit count. -/
structure ThrottleState where
  tasks : List FetchPc
  permits : Nat
deriving DecidableEq

/-- One scheduler step of the `process` CdnClient tasks as written
(src/main.rs:271-274): `acquire` takes a permit;
`let _ = self.throttle.acquire().await?` drops the `SemaphorePermit` at the
end of the `let` statement, returning the permit BEFORE the inner
`fetch_bytes` is issued; `finish` completes the inner request. -/
inductive ThrottleStep : ThrottleState → ThrottleState → Prop where
  | acquire (s : ThrottleState) (i : Nat) :
      s.tasks.get? i = some FetchPc.start → 0 < s.permits →
      ThrottleStep s ⟨s.tasks.set i FetchPc.holding, s.permits - 1⟩
  | dropPermit (s : ThrottleState) (i : Nat) :
      s.tasks.get? i = some FetchPc.holding →
      ThrottleStep s ⟨s.tasks.set i FetchPc.inflight, s.permits + 1⟩
  | finish (s : ThrottleState) (i : Nat) :
      s.tasks.get? i = some FetchPc.inflight →
      ThrottleStep s ⟨s.tasks.set i FetchPc.done, s.permits⟩

/-- Reachability under the scheduler. -/
inductive ThrottleReach : ThrottleState → ThrottleState → Prop where
  | refl (s : ThrottleState) : ThrottleReach s s
  | step {s t u : ThrottleState} :
      ThrottleReach s t → ThrottleStep t u → ThrottleReach s u

/-- Number of HTTP requests currently in flight. -/
def inFlight (s : ThrottleState) : Nat :=
  s.tasks.countP (fun t => t = FetchPc.inflight)

/-- `n` fetch tasks about to run against the `Semaphore::new(5)` throttle
(src/main.rs:284). -/
def throttleInit (n : Nat) : ThrottleState := ⟨List.replicate n FetchPc.start, 5⟩

/-! ## Concrete exemplar inputs

All checksum fields are computed with `md5hash` itself, so every value is a
closed term that the kernel can evaluate. -/

/-- An inflater that rejects everything; the exemplar inputs use only
literal (`N`) chunks, so it is never consulted. -/
def exInflate : List Nat → Except String (List Nat) := fun _ =>
  Except.error ("unsupported")

/-- A three-byte payload. -/
def exPayload : List Nat := [104, 105, 33]

/-- A literal (`N`-tagged) BLTE chunk carrying `exPayload`. -/
def exChunkN : List Nat := 78 :: exPayload

/-- A framed BLTE header with one chunk: header size 36, flag 0x0f, chunk
count 1, compressed size 4, uncompressed size 3, and the chunk's MD5. -/
def exFramedHdr : List Nat :=
  blteMagic ++ beBytes 4 36 ++ [15, 0, 0, 1] ++ beBytes 4 4 ++ beBytes 4 3
    ++ beBytes 16 (md5hash exChunkN)

/-- A complete valid framed BLTE input. -/
def exFramed : List Nat := exFramedHdr ++ exChunkN

/-- The container checksum of `exFramed` (MD5 of its header). -/
def exFramedCk : Nat := md5hash exFramedHdr

/-- A valid unframed (header size 0) BLTE input. -/
def exUnframed : List Nat := blteMagic ++ [0, 0, 0, 0] ++ exChunkN

/-- A framed BLTE header declaring a compressed chunk size of 100 while the
body holds only 4 bytes. -/
def exCrashHdr : List Nat :=
  blteMagic ++ beBytes 4 36 ++ [15, 0, 0, 1] ++ beBytes 4 100 ++ beBytes 4 3
    ++ beBytes 16 0

/-- A BLTE input whose declared compressed chunk size overruns the body. -/
def exCrash : List Nat := exCrashHdr ++ exChunkN

/-- One c-page entry: key count 1, file size 5, content key 3, encoding
key 9 (38 bytes). -/
def exEncEntry : List Nat := [1, 0] ++ beBytes 4 5 ++ beBytes 16 3 ++ beBytes 16 9

/-- A c-page fragment whose single real entry is followed by 22 zero bytes:
the entry position after the first entry holds the `key_count = 0` sentinel
of the spec. -/
def exEncPageA : List Nat := exEncEntry ++ List.replicate 22 0

/-- A c-page fragment whose single real entry is followed by an ASCII `'0'`
(0x30) byte and 21 zero bytes. -/
def exEncPageB : List Nat := exEncEntry ++ 48 :: List.replicate 21 0

/-- A variant-A root block: one record, content flags 0x10000000, file-id
delta 0, content key 5, and no name-hash array. -/
def exRootBlockSkip : List Nat :=
  leBytes 4 1 ++ leBytes 4 268435456 ++ leBytes 4 0 ++ leBytes 4 0
    ++ beBytes 16 5

/-- A variant-A root stream: magic `TSFM`, counters 2 and 1 (differing, so
skipping is armed), followed by `exRootBlockSkip`. -/
def exRootA : List Nat :=
  [84, 83, 70, 77] ++ leBytes 4 2 ++ leBytes 4 1 ++ exRootBlockSkip

/-- A minimal WDC3 data table: one section, flags 4, record size 4, one
record `[4, 0, 0, 0]`, string table `"HI\x00"`, id list `[7]`. -/
def exWdc3 : List Nat :=
  [87, 68, 67, 51] ++ leBytes 4 1 ++ leBytes 4 1 ++ leBytes 4 4 ++ leBytes 4 3
    ++ leBytes 4 0 ++ leBytes 4 0 ++ leBytes 4 7 ++ leBytes 4 7 ++ leBytes 4 0
    ++ leBytes 2 4 ++ leBytes 2 0 ++ leBytes 4 0 ++ leBytes 4 0 ++ leBytes 4 0
    ++ leBytes 4 0 ++ leBytes 4 0 ++ leBytes 4 0 ++ leBytes 4 1
    ++ leBytes 8 0 ++ leBytes 4 0 ++ leBytes 4 1 ++ leBytes 4 3 ++ leBytes 4 0
    ++ leBytes 4 4 ++ leBytes 4 0 ++ leBytes 4 0 ++ leBytes 4 0
    ++ leBytes 4 4 ++ [72, 73, 0] ++ leBytes 4 7

/-- An encoding table mapping the content key of `exPayload` to the
encoding key 1. -/
def exEnc1 : Encoding := ⟨[], [(md5hash exPayload, ([1], 2))], [], []⟩

/-- An archive index mapping encoding key 1 to archive 7, the length of
`exUnframed`, offset 0. -/
def exImap : List (Nat × (Nat × Nat × Nat)) := [(1, (7, exUnframed.length, 0))]

/-! ## Claim theorems -/

/-- C1: `fetch_content` as written resolves the content key to encoding key
1, fetches the archive range and BLTE-decodes the response, yet succeeds on
a response whose container MD5 differs from the resolved encoding key — no
container-hash comparison against the encoding key happens, because
main.rs:344 passes no checksum to `blte::parse` (whose in-src declaration,
blte.rs:18, requires one). The claimed verification "BLTE-decode using the
encoding key as the expected container hash" is absent from the code. -/
theorem fetch_content_no_container_hash_check :
    fetchContent exInflate (fun _ _ => Except.ok exUnframed) exEnc1 exImap
      (md5hash exPayload) = ROut.ok exPayload
    ∧ c2e exEnc1 (md5hash exPayload) = Except.ok 1
    ∧ md5hash exUnframed ≠ 1 := by decide

/-- C2 counterexample: the hash computed by `Root::n2c` distinguishes a
forward-slash name from its backslash form — src/root.rs:24 uppercases but
performs no slash replacement, so the claimed separator invariance fails at
the concrete input `"a/b"` vs `"a\x5cb"`. -/
theorem n2c_slash_hash_counterexample :
    n2cHash [97, 47, 98] ≠ n2cHash [97, 92, 98] := by decide

/-- C3: the encoding-table c-page entry loop does not stop at a
`key_count = 0` byte. On `exEncPageA` the byte after the first entry is 0,
yet the loop continues, reads a 22-byte entry there and inserts the bogus
binding `0 ↦ ([], 0)` into the content-key map; on `exEncPageB` the byte
after the first entry is 0x30 (ASCII `'0'`, value 48) and the loop stops
there even though a full 22-byte entry remains. The loop's sentinel
(src/encoding.rs:62, `page.chunk()[0] != b'0'`) is the byte 0x30, not the
byte 0 the claim names. -/
theorem encoding_page_sentinel_bug :
    bytesAt exEncPageA 38 1 = [0]
    ∧ encodingCPageLoop 3 true [] exEncPageA exEncPageA.length
        = ROut.ok [(3, ([9], 5)), (0, ([], 0))]
    ∧ bytesAt exEncPageB 38 1 = [48]
    ∧ 22 ≤ exEncPageB.length - 38
    ∧ encodingCPageLoop 3 true [] exEncPageB exEncPageB.length
        = ROut.ok [(3, ([9], 5))] := by decide

/-- C4 counterexample: an input whose footer hash does not match the key
(read as the claim reads it, on the high 64 bits) need not fail with the
footer-name error: a 29-byte input fails the block-count divisibility check
first, with the error "invalid archive index format". -/
theorem archive_footer_name_counterexample :
    md5hash (List.replicate 28 0) >>> 64 ≠ (2 ^ 127 : Nat) >>> 64
    ∧ archiveParseIndex (2 ^ 127) (List.replicate 29 0)
        = ROut.err ("invalid archive index format") := by decide

/-- C10 counterexample: `blte::parse` is not total — on a framed input whose
declared compressed chunk size (100) exceeds the 4 remaining body bytes, the
slice `&p[0..compressed_size]` at src/blte.rs:41 panics, even though the
container checksum is correct. -/
theorem blte_parse_crash_counterexample :
    blteParse exInflate (md5hash exCrashHdr) exCrash
      = ROut.crash ("range end index out of range") := by decide

/-- C5: the throttle does not bound in-flight requests by 5. Because
`let _ = self.throttle.acquire().await?` (src/main.rs:272) drops the permit
before the inner request is issued, a state with 6 requests simultaneously
in flight is reachable for 6 tasks — and the semaphore again holds all 5
permits there. -/
theorem throttle_six_in_flight :
    ThrottleReach (throttleInit 6) ⟨List.replicate 6 FetchPc.inflight, 5⟩
    ∧ inFlight ⟨List.replicate 6 FetchPc.inflight, 5⟩ = 6 := by
  refine ⟨?_, by decide⟩
  have h0 : ThrottleReach (throttleInit 6) (throttleInit 6) :=
    ThrottleReach.refl _
  have h1 := ThrottleReach.step h0
    (ThrottleStep.acquire _ 0 (by decide) (by decide))
  have h2 := ThrottleReach.step h1 (ThrottleStep.dropPermit _ 0 (by decide))
  have h3 := ThrottleReach.step h2
    (ThrottleStep.acquire _ 1 (by decide) (by decide))
  have h4 := ThrottleReach.step h3 (ThrottleStep.dropPermit _ 1 (by decide))
  have h5 := ThrottleReach.step h4
    (ThrottleStep.acquire _ 2 (by decide) (by decide))
  have h6 := ThrottleReach.step h5 (ThrottleStep.dropPermit _ 2 (by decide))
  have h7 := ThrottleReach.step h6
    (ThrottleStep.acquire _ 3 (by decide) (by decide))
  have h8 := ThrottleReach.step h7 (ThrottleStep.dropPermit _ 3 (by decide))
  have h9 := ThrottleReach.step h8
    (ThrottleStep.acquire _ 4 (by decide) (by decide))
  have h10 := ThrottleReach.step h9 (ThrottleStep.dropPermit _ 4 (by decide))
  have h11 := ThrottleReach.step h10
    (ThrottleStep.acquire _ 5 (by decide) (by decide))
  have h12 := ThrottleReach.step h11 (ThrottleStep.dropPermit _ 5 (by decide))
  exact h12

/-- C2 amended: `Root::n2c` uppercases but performs no slash replacement,
so the spec's `name_hash` (uppercase, normalize separators to backslash,
lookup3, swap) coincides with the hash `n2c` actually computes exactly on
the slash-normalized name. -/
theorem n2c_hash_after_normalization (s : List Nat) :
    specNameHash s = n2cHash (replaceSlash s) := by
  unfold specNameHash n2cHash
  have h : replaceSlash (upperAscii s) = upperAscii (replaceSlash s) := by
    simp only [replaceSlash, upperAscii, List.map_map]
    congr 1
    funext b
    simp only [Function.comp]
    by_cases h47 : b = 47
    · subst h47; norm_num
    · by_cases hlo : 97 ≤ b
      · by_cases hhi : b ≤ 122
        · have hne : b - 32 ≠ 47 := by omega
          simp [h47, hlo, hhi, hne]
        · simp [h47, hlo, hhi]
      · simp [h47, hlo]
  rw [h]

/-- C4 amended: the archive-index parser compares the full 128-bit MD5 of
the entire 28-byte footer with the supplied archive key: acceptance implies
full equality; an input that passes the length and block-count checks and
whose footer hash differs fails with the footer-name error; and
high-64-bit agreement alone does not make the check pass (a key differing
from the footer hash only in the low bit is rejected). -/
theorem archive_footer_name_check :
    (∀ (name : Nat) (data : List Nat) (m : List (Nat × (Nat × Nat × Nat))),
      archiveParseIndex name data = ROut.ok m →
      md5hash (data.drop (data.length - 28)) = name)
    ∧ (∀ (name : Nat) (data : List Nat), 28 ≤ data.length →
      (data.length - 28) % 4120 = 0 →
      md5hash (data.drop (data.length - 28)) ≠ name →
      archiveParseIndex name data = ROut.err ("bad footer name"))
    ∧ (md5hash (List.replicate 28 0) >>> 64
        = (md5hash (List.replicate 28 0) ^^^ 1) >>> 64
      ∧ archiveParseIndex (md5hash (List.replicate 28 0) ^^^ 1)
          (List.replicate 28 0) = ROut.err ("bad footer name")) := by
  refine ⟨?_, ?_, by decide⟩
  · intro name data m h
    unfold archiveParseIndex at h
    by_cases h1 : data.length < 28
    · rw [if_pos h1] at h; exact ROut.noConfusion h
    · rw [if_neg h1] at h
      by_cases h2 : (data.length - 28) % 4120 ≠ 0
      · rw [if_pos h2] at h; exact ROut.noConfusion h
      · rw [if_neg h2] at h
        by_cases h3 : md5hash (data.drop (data.length - 28)) ≠ name
        · rw [if_pos h3] at h; exact ROut.noConfusion h
        · exact not_not.mp h3
  · intro name data hlen hmod hname
    unfold archiveParseIndex
    rw [if_neg (by omega : ¬data.length < 28)]
    rw [if_neg (not_not_intro hmod)]
    rw [if_pos hname]

/-- C4 amended, witnessed: a 28-byte input whose footer hash differs from
the supplied key is rejected with the footer-name error. -/
theorem archive_footer_name_check_witness :
    archiveParseIndex (md5hash (List.replicate 28 0) + 1)
      (List.replicate 28 0) = ROut.err ("bad footer name") :=
  archive_footer_name_check.2.1 (md5hash (List.replicate 28 0) + 1)
    (List.replicate 28 0) (by decide) (by decide) (by decide)

/-- The name hash of a record produced by `mkRootRecords` is drawn from the
supplied name-hash list. -/
theorem mkRootRecords_nameHash_mem :
    ∀ (fs cs : List Nat) (ns : List (Option Nat)) (r : RootData),
      r ∈ mkRootRecords fs cs ns → r.nameHash ∈ ns := by
  intro fs
  induction fs with
  | nil => intro cs ns r hr; simp [mkRootRecords] at hr
  | cons f fs ih =>
    intro cs ns r hr
    cases cs with
    | nil => simp [mkRootRecords] at hr
    | cons c cs =>
      cases ns with
      | nil => simp [mkRootRecords] at hr
      | cons n ns =>
        simp only [mkRootRecords, List.mem_cons] at hr
        rcases hr with hr | hr
        · subst hr; exact List.mem_cons_self _ _
        · exact List.mem_cons_of_mem _ (ih cs ns r hr)

/-- C6: in root variant A (magic `TSFM`), parsing runs the non-interleaved
block loop with skipping armed exactly when the header's two file counts
differ; and a non-interleaved block either skips its name-hash array
entirely (every record's name hash is `none`) — precisely when skipping is
armed AND the block's content flags carry bit 0x10000000 — or stores one
name hash per record (every record's name hash is `some`). -/
theorem root_variant_a_name_skip :
    (∀ data : List Nat, 12 ≤ data.length →
      bytesAt data 0 4 = [84, 83, 70, 77] →
      rootParse data = rootFinish (parseRootBlocks false
        (decide (leVal (bytesAt data 4 4) ≠ leVal (bytesAt data 8 4)))
        (data.drop 12) data.length))
    ∧ (∀ (canSkip : Bool) (p : List Nat) (recs : List RootData)
        (rest : List Nat),
      parseRootBlock false canSkip p = ROut.ok (recs, rest) →
      ((canSkip = true ∧ leVal (bytesAt p 4 4) &&& 268435456 ≠ 0) →
        recs.map (fun r => r.nameHash) = List.replicate recs.length none)
      ∧ (¬(canSkip = true ∧ leVal (bytesAt p 4 4) &&& 268435456 ≠ 0) →
        ∀ r ∈ recs, (r.nameHash).isSome = true)) := by
  constructor
  · intro data hlen hmagic
    unfold rootParse
    rw [if_neg (by omega : ¬data.length < 4), if_pos hmagic,
      if_neg (by omega : ¬data.length - 4 < 8)]
  · intro canSkip p recs rest h
    unfold parseRootBlock at h
    by_cases h1 : p.length < 12
    · rw [if_pos h1] at h; exact ROut.noConfusion h
    rw [if_neg h1] at h
    by_cases h2 : (p.drop 12).length < 4 * leVal (bytesAt p 0 4)
    · rw [if_pos h2] at h; exact ROut.noConfusion h
    rw [if_neg h2] at h
    cases hf : rootFdids (-1) (p.drop 12) (leVal (bytesAt p 0 4)) with
    | error e => simp only [hf] at h; exact ROut.noConfusion h
    | ok fdids =>
      simp only [hf, Bool.false_eq_true, if_false] at h
      by_cases h3 : ((p.drop 12).drop (4 * leVal (bytesAt p 0 4))).length
          < 16 * leVal (bytesAt p 0 4)
      · rw [if_pos h3] at h; exact ROut.noConfusion h
      rw [if_neg h3] at h
      by_cases h4 : (!canSkip
          || decide (leVal (bytesAt p 4 4) &&& 268435456 = 0)) = true
      · -- a name hash is read for every record
        rw [if_pos h4] at h
        by_cases h5 : (((p.drop 12).drop (4 * leVal (bytesAt p 0 4))).drop
            (16 * leVal (bytesAt p 0 4))).length < 8 * leVal (bytesAt p 0 4)
        · rw [if_pos h5] at h; exact ROut.noConfusion h
        rw [if_neg h5] at h
        rw [ROut.ok.injEq, Prod.mk.injEq] at h
        obtain ⟨hrecs, hrest⟩ := h
        constructor
        · rintro ⟨hcs, hfl⟩
          subst hcs
          simp [hfl] at h4
        · intro hcond r hr
          rw [← hrecs] at hr
          have := mkRootRecords_nameHash_mem _ _ _ r hr
          rw [List.mem_map] at this
          obtain ⟨x, _, hx⟩ := this
          rw [← hx]
          rfl
      · -- the name-hash array is skipped
        rw [if_neg h4] at h
        rw [ROut.ok.injEq, Prod.mk.injEq] at h
        obtain ⟨hrecs, hrest⟩ := h
        have hskip : canSkip = true ∧ leVal (bytesAt p 4 4) &&& 268435456 ≠ 0 := by
          rcases Bool.not_eq_true _ |>.mp h4 |> Bool.or_eq_false_iff.mp with ⟨ha, hb⟩
          refine ⟨by revert ha; cases canSkip <;> simp, ?_⟩
          intro hz
          rw [decide_eq_true hz] at hb
          exact Bool.noConfusion hb
        constructor
        · intro _
          have hall : ∀ b ∈ recs.map (fun r => r.nameHash), b = none := by
            intro b hb
            rw [List.mem_map] at hb
            obtain ⟨r, hr, hrb⟩ := hb
            rw [← hrecs] at hr
            have := mkRootRecords_nameHash_mem _ _ _ r hr
            rw [← hrb]
            exact List.eq_of_mem_replicate this
          have := List.eq_replicate_length.mpr hall
          rwa [List.length_map] at this
        · intro hcond
          exact absurd hskip hcond

/-- C6 witnessed: on the concrete variant-A stream `exRootA` (counters 2
and 1) parsing takes the skip-armed path, and the concrete skip block
`exRootBlockSkip` (flags 0x10000000) yields one record with no name hash. -/
theorem root_variant_a_name_skip_witness :
    rootParse exRootA = rootFinish (parseRootBlocks false
      (decide (leVal (bytesAt exRootA 4 4) ≠ leVal (bytesAt exRootA 8 4)))
      (exRootA.drop 12) exRootA.length)
    ∧ ([(⟨0, 5, none⟩ : RootData)].map (fun r => r.nameHash)
        = List.replicate ([(⟨0, 5, none⟩ : RootData)]).length none) :=
  ⟨root_variant_a_name_skip.1 exRootA (by decide) (by decide),
   (root_variant_a_name_skip.2 true exRootBlockSkip [⟨0, 5, none⟩] []
     (by decide)).1 (by decide)⟩

/-- `parseBlteChunk` panics only on an empty chunk. -/
theorem parseBlteChunk_isCrash (inflate : List Nat → Except String (List Nat))
    (chunk : List Nat) (h : ¬chunk.length = 0) :
    (parseBlteChunk inflate chunk).isCrash = false := by
  unfold parseBlteChunk
  rw [if_neg h]
  by_cases h1 : chunk.headD 0 = 78
  · rw [if_pos h1]; rfl
  · rw [if_neg h1]
    by_cases h2 : chunk.headD 0 = 90
    · rw [if_pos h2]
      cases hi : inflate chunk.tail with
      | ok d => simp only [hi]; rfl
      | error e => simp only [hi]; rfl
    · rw [if_neg h2]; rfl

/-- The BLTE chunk loop does not panic when every declared chunk is
nonempty and fits the remaining body. -/
theorem blteChunkLoop_isCrash (inflate : List Nat → Except String (List Nat)) :
    ∀ (ci : List (Nat × Nat × Nat)) (p acc : List Nat),
      chunksFit ci p = true →
      (blteChunkLoop inflate ci p acc).isCrash = false := by
  intro ci
  induction ci with
  | nil =>
    intro p acc hfit
    unfold blteChunkLoop
    by_cases h : p.length = 0
    · rw [if_pos h]; rfl
    · rw [if_neg h]; rfl
  | cons c rest ih =>
    obtain ⟨cs, us, ck⟩ := c
    intro p acc hfit
    unfold chunksFit at hfit
    rw [Bool.and_eq_true, Bool.and_eq_true] at hfit
    obtain ⟨⟨hpos, hle⟩, hrest⟩ := hfit
    have hpos2 : 0 < cs := of_decide_eq_true hpos
    have hle2 : cs ≤ p.length := of_decide_eq_true hle
    unfold blteChunkLoop
    rw [if_neg (Nat.not_lt.mpr hle2)]
    by_cases hck : md5hash (p.take cs) ≠ ck
    · rw [if_pos hck]; rfl
    · rw [if_neg hck]
      have hne : ¬(p.take cs).length = 0 := by
        rw [List.length_take]
        omega
      cases hd : parseBlteChunk inflate (p.take cs) with
      | ok d =>
        simp only [hd]
        by_cases hu : d.length ≠ us
        · rw [if_pos hu]; rfl
        · rw [if_neg hu]; exact ih (p.drop cs) (acc ++ d) hrest
      | err e => simp only [hd]; rfl
      | crash e =>
        have := parseBlteChunk_isCrash inflate (p.take cs) hne
        rw [hd] at this
        exact absurd this (by simp [ROut.isCrash])

/-- Inversion of a successful framed `blte::parse`: every structural guard
passed and the chunk loop succeeded on the body. -/
theorem blteParse_ok_framed (inflate : List Nat → Except String (List Nat))
    (checksum : Nat) (data out : List Nat)
    (hok : blteParse inflate checksum data = ROut.ok out)
    (hframed : beVal (bytesAt data 4 4) ≠ 0) :
    ¬data.length < 12
    ∧ bytesAt data 0 4 = blteMagic
    ∧ ¬data.length - 8 < sub64 (beVal (bytesAt data 4 4)) 8
    ∧ md5hash (data.take (beVal (bytesAt data 4 4))) = checksum
    ∧ bytesAt data 8 1 = [15]
    ∧ beVal (bytesAt data 4 4) = beVal (bytesAt data 9 3) * 24 + 12
    ∧ blteChunkLoop inflate
        (readChunkInfo (data.drop 12) (beVal (bytesAt data 9 3)))
        (data.drop (beVal (bytesAt data 4 4))) [] = ROut.ok out := by
  unfold blteParse at hok
  by_cases h1 : data.length < 12
  · rw [if_pos h1] at hok; exact ROut.noConfusion hok
  rw [if_neg h1] at hok
  by_cases h2 : bytesAt data 0 4 ≠ blteMagic
  · rw [if_pos h2] at hok; exact ROut.noConfusion hok
  rw [if_neg h2] at hok
  rw [if_neg hframed] at hok
  by_cases h3 : data.length - 8 < sub64 (beVal (bytesAt data 4 4)) 8
  · rw [if_pos h3] at hok; exact ROut.noConfusion hok
  rw [if_neg h3] at hok
  by_cases h4 : md5hash (data.take (beVal (bytesAt data 4 4))) ≠ checksum
  · rw [if_pos h4] at hok; exact ROut.noConfusion hok
  rw [if_neg h4] at hok
  by_cases h5 : bytesAt data 8 1 ≠ [15]
  · rw [if_pos h5] at hok; exact ROut.noConfusion hok
  rw [if_neg h5] at hok
  by_cases h6 : beVal (bytesAt data 4 4) ≠ beVal (bytesAt data 9 3) * 24 + 12
  · rw [if_pos h6] at hok; exact ROut.noConfusion hok
  rw [if_neg h6] at hok
  exact ⟨h1, not_not.mp h2, h3, not_not.mp h4, not_not.mp h5,
    not_not.mp h6, hok⟩

/-- `blteChunkInfo` is defined on any input passing the framed structural
guards, and yields the declared descriptor list. -/
theorem blteChunkInfo_of_guards (data : List Nat)
    (h1 : ¬data.length < 12) (h2 : bytesAt data 0 4 = blteMagic)
    (h0 : beVal (bytesAt data 4 4) ≠ 0)
    (h3 : ¬data.length - 8 < sub64 (beVal (bytesAt data 4 4)) 8)
    (h5 : bytesAt data 8 1 = [15])
    (h6 : beVal (bytesAt data 4 4) = beVal (bytesAt data 9 3) * 24 + 12) :
    blteChunkInfo data
      = some (readChunkInfo (data.drop 12) (beVal (bytesAt data 9 3))) := by
  unfold blteChunkInfo
  rw [if_neg h1, if_neg (fun hne => hne h2), if_neg h0, if_neg h3,
    if_neg (fun hne => hne h5), if_neg (fun hne => hne h6)]

/-- C10 amended: `blte::parse` never panics on inputs whose declared
compressed chunks are nonempty and fit the remaining body (`blteSliceSafe`);
in particular all truncated headers, bad magics and checksum mismatches
produce errors, not panics. (The counterexample shows the proviso is needed:
an oversized declared chunk panics.) -/
theorem blte_no_crash_when_chunks_fit
    (inflate : List Nat → Except String (List Nat)) (checksum : Nat)
    (data : List Nat) (hsafe : blteSliceSafe data = true) :
    (blteParse inflate checksum data).isCrash = false := by
  unfold blteParse
  by_cases h1 : data.length < 12
  · rw [if_pos h1]; rfl
  rw [if_neg h1]
  by_cases h2 : bytesAt data 0 4 ≠ blteMagic
  · rw [if_pos h2]; rfl
  rw [if_neg h2]
  by_cases h0 : beVal (bytesAt data 4 4) = 0
  · rw [if_pos h0]
    by_cases hck : md5hash data ≠ checksum
    · rw [if_pos hck]; rfl
    · rw [if_neg hck]
      refine parseBlteChunk_isCrash inflate (data.drop 8) ?_
      rw [List.length_drop]
      omega
  rw [if_neg h0]
  by_cases h3 : data.length - 8 < sub64 (beVal (bytesAt data 4 4)) 8
  · rw [if_pos h3]; rfl
  rw [if_neg h3]
  by_cases h4 : md5hash (data.take (beVal (bytesAt data 4 4))) ≠ checksum
  · rw [if_pos h4]; rfl
  rw [if_neg h4]
  by_cases h5 : bytesAt data 8 1 ≠ [15]
  · rw [if_pos h5]; rfl
  rw [if_neg h5]
  by_cases h6 : beVal (bytesAt data 4 4) ≠ beVal (bytesAt data 9 3) * 24 + 12
  · rw [if_pos h6]; rfl
  rw [if_neg h6]
  have hinfo := blteChunkInfo_of_guards data h1 (not_not.mp h2) h0 h3
    (not_not.mp h5) (not_not.mp h6)
  unfold blteSliceSafe at hsafe
  simp only [hinfo] at hsafe
  exact blteChunkLoop_isCrash inflate _ _ [] hsafe

/-- C10 amended, witnessed: the valid framed exemplar satisfies the fitting
condition and indeed does not panic. -/
theorem blte_no_crash_when_chunks_fit_witness :
    (blteParse exInflate exFramedCk exFramed).isCrash = false :=
  blte_no_crash_when_chunks_fit exInflate exFramedCk exFramed (by decide)

/-- Reading a window that lies inside `data` is unaffected by appending a
byte. -/
theorem bytesAt_append (data : List Nat) (b i n : Nat)
    (h : i + n ≤ data.length) :
    bytesAt (data ++ [b]) i n = bytesAt data i n := by
  unfold bytesAt
  rw [List.drop_append_of_le_length (by omega),
    List.take_append_of_le_length (by rw [List.length_drop]; omega)]

/-- Chunk descriptors read entirely inside `p` are unaffected by appending
a byte. -/
theorem readChunkInfo_append (b : Nat) :
    ∀ (n : Nat) (p : List Nat), 24 * n ≤ p.length →
      readChunkInfo (p ++ [b]) n = readChunkInfo p n := by
  intro n
  induction n with
  | zero => intro p h; rfl
  | succ n ih =>
    intro p h
    unfold readChunkInfo
    rw [List.take_append_of_le_length (by omega)]
    have h4 : bytesAt (p ++ [b]) 4 4 = bytesAt p 4 4 :=
      bytesAt_append p b 4 4 (by omega)
    have h8 : bytesAt (p ++ [b]) 8 16 = bytesAt p 8 16 :=
      bytesAt_append p b 8 16 (by omega)
    rw [h4, h8, List.drop_append_of_le_length (by omega)]
    rw [ih (p.drop 24) (by rw [List.length_drop]; omega)]

/-- A fold bound: folding big-endian byte accumulation over bytes `< 256`
stays below `(acc + 1) * 256 ^ length`. -/
theorem beVal_foldl_lt :
    ∀ (l : List Nat) (acc : Nat), (∀ x ∈ l, x < 256) →
      l.foldl (fun a b => a * 256 + b) acc < (acc + 1) * 256 ^ l.length := by
  intro l
  induction l with
  | nil =>
    intro acc h
    simp only [List.foldl_nil, List.length_nil, pow_zero, Nat.mul_one]
    omega
  | cons c l ih =>
    intro acc h
    have hc : c < 256 := h c (List.mem_cons_self c l)
    have htail : ∀ x ∈ l, x < 256 := fun x hx => h x (List.mem_cons_of_mem c hx)
    have h1 := ih (acc * 256 + c) htail
    have h2 : (acc * 256 + c + 1) * 256 ^ l.length
        ≤ (acc + 1) * 256 ^ (c :: l).length := by
      rw [List.length_cons, pow_succ]
      calc (acc * 256 + c + 1) * 256 ^ l.length
          ≤ ((acc + 1) * 256) * 256 ^ l.length :=
            Nat.mul_le_mul_right _ (by omega)
        _ = (acc + 1) * (256 ^ l.length * 256) := by ring
    exact lt_of_lt_of_le h1 h2

/-- A big-endian value of bytes `< 256` is below `256 ^ length`. -/
theorem beVal_lt (l : List Nat) (h : ∀ x ∈ l, x < 256) :
    beVal l < 256 ^ l.length := by
  have := beVal_foldl_lt l 0 h
  simpa [beVal] using this

/-- Windows of a byte list are byte lists. -/
theorem bytesAt_bytes (data : List Nat) (i n : Nat)
    (h : ∀ x ∈ data, x < 256) : ∀ x ∈ bytesAt data i n, x < 256 := by
  intro x hx
  exact h x (List.drop_subset i data (List.take_subset n _ hx))

/-- Appending one byte to a body the chunk loop consumed exactly turns the
successful run into the error "trailing blte data". -/
theorem blteChunkLoop_append (inflate : List Nat → Except String (List Nat))
    (b : Nat) :
    ∀ (ci : List (Nat × Nat × Nat)) (p acc out : List Nat),
      blteChunkLoop inflate ci p acc = ROut.ok out →
      blteChunkLoop inflate ci (p ++ [b]) acc
        = ROut.err ("trailing blte data") := by
  intro ci
  induction ci with
  | nil =>
    intro p acc out h
    unfold blteChunkLoop at h ⊢
    by_cases hp : p.length = 0
    · rw [if_neg (by simp)]
    · rw [if_neg hp] at h; exact ROut.noConfusion h
  | cons c rest ih =>
    obtain ⟨cs, us, ck⟩ := c
    intro p acc out h
    unfold blteChunkLoop at h ⊢
    by_cases h1 : p.length < cs
    · rw [if_pos h1] at h; exact ROut.noConfusion h
    rw [if_neg h1] at h
    have hle : cs ≤ p.length := Nat.le_of_not_lt h1
    rw [if_neg (by simp; omega : ¬(p ++ [b]).length < cs)]
    rw [List.take_append_of_le_length hle,
      List.drop_append_of_le_length hle]
    by_cases hck : md5hash (p.take cs) ≠ ck
    · rw [if_pos hck] at h; exact ROut.noConfusion h
    rw [if_neg hck] at h
    rw [if_neg hck]
    cases hd : parseBlteChunk inflate (p.take cs) with
    | ok d =>
      simp only [hd] at h ⊢
      by_cases hu : d.length ≠ us
      · rw [if_pos hu] at h; exact ROut.noConfusion h
      · rw [if_neg hu] at h
        rw [if_neg hu]
        exact ih (p.drop cs) (acc ++ d) out h
    | err e => simp only [hd] at h; exact ROut.noConfusion h
    | crash e => simp only [hd] at h; exact ROut.noConfusion h

/-- C7: on every framed byte input that `blte::parse` decodes successfully,
appending one extra byte turns the decode into the format error
"trailing blte data" — all declared chunks are consumed and trailing bytes
are fatal. -/
theorem blte_trailing_data (inflate : List Nat → Except String (List Nat))
    (checksum : Nat) (data : List Nat) (b : Nat) (out : List Nat)
    (hbytes : ∀ x ∈ data, x < 256)
    (hok : blteParse inflate checksum data = ROut.ok out)
    (hframed : beVal (bytesAt data 4 4) ≠ 0) :
    blteParse inflate checksum (data ++ [b])
      = ROut.err ("trailing blte data") := by
  obtain ⟨h1, h2, h3, h4, h5, h6, hloop⟩ :=
    blteParse_ok_framed inflate checksum data out hok hframed
  have hlen : 12 ≤ data.length := Nat.le_of_not_lt h1
  -- the declared header size is a 32-bit value and fits the input
  have hhs_lt : beVal (bytesAt data 4 4) < 4294967296 := by
    have hb := beVal_lt (bytesAt data 4 4) (bytesAt_bytes data 4 4 hbytes)
    have hl : (bytesAt data 4 4).length ≤ 4 := by
      unfold bytesAt; rw [List.length_take]; omega
    calc beVal (bytesAt data 4 4) < 256 ^ (bytesAt data 4 4).length := hb
      _ ≤ 256 ^ 4 := Nat.pow_le_pow_right (by omega) hl
  have hhs_ge : 12 ≤ beVal (bytesAt data 4 4) := by omega
  have hsub : sub64 (beVal (bytesAt data 4 4)) 8
      = beVal (bytesAt data 4 4) - 8 := by
    unfold sub64
    rw [Nat.mod_eq_of_lt (by omega : (8 : Nat) < 18446744073709551616)]
    rw [show beVal (bytesAt data 4 4) + 18446744073709551616 - 8
        = (beVal (bytesAt data 4 4) - 8) + 18446744073709551616 by omega]
    rw [Nat.add_mod_right]
    exact Nat.mod_eq_of_lt (by omega)
  have hhs_le : beVal (bytesAt data 4 4) ≤ data.length := by
    rw [hsub] at h3
    omega
  -- header reads are unchanged by the appended byte
  have e0 : bytesAt (data ++ [b]) 0 4 = bytesAt data 0 4 :=
    bytesAt_append data b 0 4 (by omega)
  have e4 : bytesAt (data ++ [b]) 4 4 = bytesAt data 4 4 :=
    bytesAt_append data b 4 4 (by omega)
  have e8 : bytesAt (data ++ [b]) 8 1 = bytesAt data 8 1 :=
    bytesAt_append data b 8 1 (by omega)
  have e9 : bytesAt (data ++ [b]) 9 3 = bytesAt data 9 3 :=
    bytesAt_append data b 9 3 (by omega)
  unfold blteParse
  rw [if_neg (by simp; omega : ¬(data ++ [b]).length < 12)]
  rw [e0, if_neg (fun hne => hne h2), e4, if_neg hframed]
  rw [if_neg (by simp; rw [hsub]; omega
    : ¬(data ++ [b]).length - 8 < sub64 (beVal (bytesAt data 4 4)) 8)]
  rw [List.take_append_of_le_length hhs_le]
  rw [if_neg (fun hne => hne h4)]
  rw [e8, if_neg (fun hne => hne h5)]
  rw [e9, if_neg (fun hne => hne h6)]
  rw [List.drop_append_of_le_length (by omega : 12 ≤ data.length),
    List.drop_append_of_le_length hhs_le]
  rw [readChunkInfo_append b (beVal (bytesAt data 9 3)) (data.drop 12)
    (by rw [List.length_drop]; omega)]
  exact blteChunkLoop_append inflate b _ _ [] out hloop

/-- C7 witnessed: the valid framed exemplar decodes to the payload, and the
same input with one byte appended yields exactly "trailing blte data". -/
theorem blte_trailing_data_witness :
    blteParse exInflate exFramedCk (exFramed ++ [0])
      = ROut.err ("trailing blte data") :=
  blte_trailing_data exInflate exFramedCk exFramed 0 exPayload (by decide)
    (by decide) (by decide)

/-- A successful chunk loop decodes each declared chunk in order: the
output is the accumulator followed by the concatenation of the decodes, and
its length grows by the sum of the declared uncompressed sizes. -/
theorem blteChunkLoop_decodes (inflate : List Nat → Except String (List Nat)) :
    ∀ (ci : List (Nat × Nat × Nat)) (p acc out : List Nat),
      blteChunkLoop inflate ci p acc = ROut.ok out →
      ∃ ds, chunkDecodeList inflate ci p = some ds
        ∧ out = acc ++ ds.flatten
        ∧ out.length = acc.length + (ci.map (fun c => c.2.1)).sum := by
  intro ci
  induction ci with
  | nil =>
    intro p acc out h
    unfold blteChunkLoop at h
    by_cases hp : p.length = 0
    · rw [if_pos hp] at h
      rw [ROut.ok.injEq] at h
      subst h
      exact ⟨[], rfl, by simp, by simp⟩
    · rw [if_neg hp] at h; exact ROut.noConfusion h
  | cons c rest ih =>
    obtain ⟨cs, us, ck⟩ := c
    intro p acc out h
    unfold blteChunkLoop at h
    by_cases h1 : p.length < cs
    · rw [if_pos h1] at h; exact ROut.noConfusion h
    rw [if_neg h1] at h
    by_cases hck : md5hash (p.take cs) ≠ ck
    · rw [if_pos hck] at h; exact ROut.noConfusion h
    rw [if_neg hck] at h
    cases hd : parseBlteChunk inflate (p.take cs) with
    | ok d =>
      simp only [hd] at h
      by_cases hu : d.length ≠ us
      · rw [if_pos hu] at h; exact ROut.noConfusion h
      rw [if_neg hu] at h
      obtain ⟨ds, hds, hout, hlen⟩ := ih (p.drop cs) (acc ++ d) out h
      have hdus : d.length = us := not_not.mp hu
      refine ⟨d :: ds, ?_, ?_, ?_⟩
      · unfold chunkDecodeList
        simp only [hd, hds]
        rfl
      · rw [hout]
        simp [List.append_assoc]
      · rw [hlen]
        simp only [List.length_append, List.map_cons, List.sum_cons]
        omega
    | err e => simp only [hd] at h; exact ROut.noConfusion h
    | crash e => simp only [hd] at h; exact ROut.noConfusion h

/-- C8: whenever framed BLTE decoding succeeds, the output is the
concatenation (in declared order) of the per-chunk decodes of the body, and
its total length is the sum of the uncompressed sizes declared in the
header's chunk descriptors. -/
theorem blte_output_concat_lengths
    (inflate : List Nat → Except String (List Nat)) (checksum : Nat)
    (data out : List Nat)
    (hok : blteParse inflate checksum data = ROut.ok out)
    (hframed : beVal (bytesAt data 4 4) ≠ 0) :
    ∃ ci ds, blteChunkInfo data = some ci
      ∧ chunkDecodeList inflate ci (data.drop (beVal (bytesAt data 4 4)))
          = some ds
      ∧ out = ds.flatten
      ∧ out.length = (ci.map (fun c => c.2.1)).sum := by
  obtain ⟨h1, h2, h3, h4, h5, h6, hloop⟩ :=
    blteParse_ok_framed inflate checksum data out hok hframed
  obtain ⟨ds, hds, hout, hlen⟩ :=
    blteChunkLoop_decodes inflate _ _ [] out hloop
  refine ⟨_, ds, blteChunkInfo_of_guards data h1 h2 hframed h3 h5 h6,
    hds, ?_, ?_⟩
  · rw [hout, List.nil_append]
  · rw [hlen, List.length_nil, Nat.zero_add]

/-- C8 witnessed: on the framed exemplar the decoded output is the payload,
the concatenation of the single chunk's decode, of the declared length. -/
theorem blte_output_concat_lengths_witness :
    ∃ ci ds, blteChunkInfo exFramed = some ci
      ∧ chunkDecodeList exInflate ci
          (exFramed.drop (beVal (bytesAt exFramed 4 4))) = some ds
      ∧ exPayload = ds.flatten
      ∧ exPayload.length = (ci.map (fun c => c.2.1)).sum :=
  blte_output_concat_lengths exInflate exFramedCk exFramed exPayload
    (by decide) (by decide)

/-- When the checked per-record traversal succeeds, it returns exactly the
per-record string extraction of the spec, record by record. -/
theorem exceptMapM_strings_ok (st : List Nat) (nr rs : Nat) :
    ∀ (l : List (Nat × List Nat)) (v : List (List (List Nat))),
      exceptMapM (fun p => wdc3RecordStringsChecked st nr rs p.1 p.2) l
        = Except.ok v →
      v = l.map (fun p => wdc3RecordStrings st nr rs p.1 p.2) := by
  intro l
  induction l with
  | nil =>
    intro v h
    unfold exceptMapM at h
    rw [Except.ok.injEq] at h
    exact h.symm
  | cons a l ih =>
    intro v h
    unfold exceptMapM at h
    cases hc : wdc3RecordStringsChecked st nr rs a.1 a.2 with
    | error e => simp only [hc] at h; exact Except.noConfusion h
    | ok b =>
      simp only [hc] at h
      cases hrec : exceptMapM
          (fun p => wdc3RecordStringsChecked st nr rs p.1 p.2) l with
      | error e => simp only [hrec] at h; exact Except.noConfusion h
      | ok bs =>
        simp only [hrec] at h
        rw [Except.ok.injEq] at h
        subst h
        have hb : b = wdc3RecordStrings st nr rs a.1 a.2 := by
          unfold wdc3RecordStringsChecked at hc
          by_cases hv : (wdc3RecordStrings st nr rs a.1 a.2).all utf8Valid
              = true
          · rw [if_pos hv] at hc
            rw [Except.ok.injEq] at hc
            exact hc.symm
          · rw [if_neg hv] at hc
            exact Except.noConfusion hc
        rw [List.map_cons, hb, ih bs hrec]

/-- C9: whenever `wdc3::strings` accepts a data table, the table parses to
one section with flags 4, a record size divisible by 4 and an id list of
the record count, and the result is exactly the spec's mapping: `id_list[k]`
maps to the strings read, for each 4-byte offset `o` of record `k`, from
the null-terminated string-table position
`value - (num_records - k) * record_size + o`. -/
theorem wdc3_strings_spec (data : List Nat) (m : List (Nat × List (List Nat)))
    (h : strings data = ROut.ok m) :
    ∃ f sec, wdc3FileParse data = some f
      ∧ f.sections = [sec]
      ∧ f.header.flags = 4
      ∧ sec.idList.length = sec.records.length
      ∧ f.header.recordSize % 4 = 0
      ∧ m = wdc3SpecMap f sec := by
  unfold strings at h
  cases hp : wdc3FileParse data with
  | none => simp only [hp] at h; exact ROut.noConfusion h
  | some f =>
    simp only [hp] at h
    by_cases hf : f.header.flags ≠ 4
    · rw [if_pos hf] at h; exact ROut.noConfusion h
    rw [if_neg hf] at h
    cases hs : f.sections with
    | nil => simp only [hs] at h; exact ROut.noConfusion h
    | cons sec rest =>
      cases rest with
      | cons s2 rest2 => simp only [hs] at h; exact ROut.noConfusion h
      | nil =>
        simp only [hs] at h
        by_cases hid : sec.idList.length ≠ sec.records.length
        · rw [if_pos hid] at h; exact ROut.noConfusion h
        rw [if_neg hid] at h
        by_cases hr4 : f.header.recordSize % 4 ≠ 0
        · rw [if_pos hr4] at h; exact ROut.noConfusion h
        rw [if_neg hr4] at h
        cases hmm : exceptMapM
            (fun p => wdc3RecordStringsChecked sec.stringTable
              sec.records.length f.header.recordSize p.1 p.2)
            sec.records.enum with
        | error e => simp only [hmm] at h; exact ROut.noConfusion h
        | ok values =>
          simp only [hmm] at h
          rw [ROut.ok.injEq] at h
          subst h
          refine ⟨f, sec, rfl, hs, not_not.mp hf, not_not.mp hid,
            not_not.mp hr4, ?_⟩
          unfold wdc3SpecMap
          rw [exceptMapM_strings_ok _ _ _ _ _ hmm]

/-- C9 witnessed: the exemplar table is accepted and its result map is the
spec mapping `7 ↦ ["HI"]`. -/
theorem wdc3_strings_spec_witness :
    ∃ f sec, wdc3FileParse exWdc3 = some f
      ∧ f.sections = [sec]
      ∧ f.header.flags = 4
      ∧ sec.idList.length = sec.records.length
      ∧ f.header.recordSize % 4 = 0
      ∧ [(7, [[72, 73]])] = wdc3SpecMap f sec :=
  wdc3_strings_spec exWdc3 [(7, [[72, 73]])] (by decide)

end Rustycasc
